import Mathlib

/-!
Verification of the synthetic ("dummy") audio backend driver
(`src/wrapper/standalone/backend/dummy.rs`).

The driver's collaborating data contracts (`Buffer`, `Transport`,
`WrapperConfig`, `AudioIOLayout`, `AuxiliaryBuffers`) live in repository
modules that are not part of the shown source; they are modelled from the
specification, faithful to how `Dummy::run` uses them.  Samples (`f32`) and
wall-clock durations are modelled as rationals; `i64`/`i32` counters as `ℤ`.
-/

/-- Modelled from the spec: the resolved configuration record
(`WrapperConfig` from the standalone wrapper's config module, not in the
shown source): sample rate (positive real, samples/second), period size
(positive integer), tempo (beats/minute), time-signature numerator and
denominator (positive integers).  The dummy driver reads exactly these
fields. -/
structure WrapperConfig where
  sample_rate : ℚ
  period_size : ℕ
  tempo : ℚ
  timesig_num : ℕ
  timesig_denom : ℕ
  deriving Repr, DecidableEq

/-- Modelled from the spec: the resolved I/O layout (`AudioIOLayout` from
`audio_setup`, not in the shown source): an optional main output channel
count (absent ↦ 0 channels) and ordered sequences of auxiliary input and
output port channel counts. -/
structure AudioIOLayout where
  main_output_channels : Option ℕ
  aux_input_ports : List ℕ
  aux_output_ports : List ℕ
  deriving Repr, DecidableEq

/-- Modelled from the spec: a `Buffer` is a view over per-channel sample
storage; `set_slices` fixes both the reported sample count and the channel
slices, and `samples()` returns the stored sample count independently of the
channel list.  Samples (`f32`) are modelled as `ℚ`; the only sample value the
driver itself ever produces is `0`. -/
structure Buffer where
  num_samples : ℕ
  channels : List (List ℚ)
  deriving Repr, DecidableEq

/-- `Buffer::default()`: an empty buffer with zero samples and no channels. -/
def Buffer.default : Buffer := ⟨0, []⟩

/-- `Buffer::set_slices(num_samples, f)` where `f` installs the given channel
slices: records the sample count and replaces the channel list. -/
def Buffer.set_slices (ns : ℕ) (chs : List (List ℚ)) (_b : Buffer) : Buffer :=
  ⟨ns, chs⟩

/-- `buffer.samples()`: the sample count recorded by `set_slices`. -/
def Buffer.samples (b : Buffer) : ℕ := b.num_samples

/-- The per-iteration zeroing `for channel in buffer.as_slice() { channel.fill(0.0) }`:
every channel keeps its length, every sample becomes `0`. -/
def Buffer.zeroed (b : Buffer) : Buffer :=
  ⟨b.num_samples, b.channels.map fun ch => List.replicate ch.length 0⟩

/-- The effect of the callback writing through its `&mut Buffer` view: sample
`(i, j)` becomes `f i j`.  Safe Rust code can only assign elements, so the
channel shape is preserved. -/
def Buffer.applyWrite (f : ℕ → ℕ → ℚ) (b : Buffer) : Buffer :=
  ⟨b.num_samples, b.channels.mapIdx fun i ch => ch.mapIdx fun j _ => f i j⟩

/-- Modelled from the spec: `Transport` (from `context::process`, not in the
shown source): a snapshot of playback state.  `Transport::new(sample_rate)`
initialises every optional field to `None` and `playing` to `false`. -/
structure Transport where
  sample_rate : ℚ
  pos_samples : Option ℤ
  tempo : Option ℚ
  time_sig_numerator : Option ℤ
  time_sig_denominator : Option ℤ
  playing : Bool
  deriving Repr, DecidableEq

/-- `Transport::new(sample_rate)`. -/
def Transport.new (sr : ℚ) : Transport :=
  ⟨sr, none, none, none, none, false⟩

/-- Modelled from the spec: `AuxiliaryBuffers` (from `audio_setup`, not in
the shown source): the ordered auxiliary input and output `Buffer`s lent to
the callback alongside the main buffer. -/
structure AuxiliaryBuffers where
  inputs : List Buffer
  outputs : List Buffer
  deriving Repr, DecidableEq

/-- The result of one callback invocation: whether to continue (`true`) or
stop (`false`), the samples it wrote through the main and auxiliary mutable
views (indexed by bus, channel and sample), and the note events it pushed
into the output sink.  `E` is the plugin's note-event type
(`PluginNoteEvent<P>`). -/
structure CbOut (E : Type) where
  ret : Bool
  mainWrite : ℕ → ℕ → ℚ
  auxInWrite : ℕ → ℕ → ℕ → ℚ
  auxOutWrite : ℕ → ℕ → ℕ → ℚ
  pushed : List E

/-- The processing callback handed to `run`: it observes the main buffer, the
auxiliary buses, the transport snapshot, the input note events and the
contents of the output sink at entry, and produces a `CbOut`. -/
def Cb (E : Type) : Type :=
  Buffer → AuxiliaryBuffers → Transport → List E → List E → CbOut E

/-- The mutable state `Dummy::run` carries across loop iterations: the main
buffer, the auxiliary buffers, the reused output-event vector, and the
processed-sample counter (`i64`). -/
structure RunState (E : Type) where
  buffer : Buffer
  aux_input_buffers : List Buffer
  aux_output_buffers : List Buffer
  midi_output_events : List E
  num_processed_samples : ℤ

/-- Ghost record of one callback invocation: the arguments exactly as the
callback receives them, and the boolean it returned. -/
structure Invocation (E : Type) where
  buffer : Buffer
  aux : AuxiliaryBuffers
  transport : Transport
  input_events : List E
  sink_at_entry : List E
  ret : Bool
  deriving DecidableEq

/-- The main output channel count:
`main_output_channels.map(NonZeroU32::get).unwrap_or_default()`. -/
def numOut (layout : AudioIOLayout) : ℕ :=
  layout.main_output_channels.getD 0

/-- The state `run` builds before entering its loop (source lines 38–104):
main-bus storage `vec![vec![0.0; period_size]; num_output_channels]` wrapped
in a buffer via `set_slices`, one zero block per auxiliary input/output port,
an empty event vector, and the counter at 0. -/
def initState (E : Type) (cfg : WrapperConfig) (layout : AudioIOLayout) : RunState E where
  buffer := Buffer.set_slices cfg.period_size
    (List.replicate (numOut layout) (List.replicate cfg.period_size 0)) Buffer.default
  aux_input_buffers := layout.aux_input_ports.map fun c =>
    Buffer.set_slices cfg.period_size
      (List.replicate c (List.replicate cfg.period_size 0)) Buffer.default
  aux_output_buffers := layout.aux_output_ports.map fun c =>
    Buffer.set_slices cfg.period_size
      (List.replicate c (List.replicate cfg.period_size 0)) Buffer.default
  midi_output_events := []
  num_processed_samples := 0

/-- One pass through the loop body up to and including the callback call
(source lines 106–148): build the transport snapshot, zero every buffer,
clear the event vector, invoke the callback on the zeroed views, and apply
the callback's writes and pushes to the state.  Returns the ghost
`Invocation` and the post-callback state (counter not yet advanced). -/
def step {E : Type} (cfg : WrapperConfig) (cb : Cb E) (s : RunState E) :
    Invocation E × RunState E :=
  let transport : Transport :=
    { Transport.new cfg.sample_rate with
        pos_samples := some s.num_processed_samples
        tempo := some cfg.tempo
        time_sig_numerator := some (cfg.timesig_num : ℤ)
        time_sig_denominator := some (cfg.timesig_denom : ℤ)
        playing := true }
  let buf := s.buffer.zeroed
  let auxIn := s.aux_input_buffers.map Buffer.zeroed
  let auxOut := s.aux_output_buffers.map Buffer.zeroed
  let out := cb buf ⟨auxIn, auxOut⟩ transport [] []
  (⟨buf, ⟨auxIn, auxOut⟩, transport, [], [], out.ret⟩,
    { buffer := buf.applyWrite out.mainWrite
      aux_input_buffers := auxIn.mapIdx fun i b => b.applyWrite (out.auxInWrite i)
      aux_output_buffers := auxOut.mapIdx fun i b => b.applyWrite (out.auxOutWrite i)
      midi_output_events := out.pushed
      num_processed_samples := s.num_processed_samples })

/-- The target pacing interval (source lines 35–36):
`period_size / sample_rate` seconds. -/
def interval (cfg : WrapperConfig) : ℚ :=
  (cfg.period_size : ℚ) / cfg.sample_rate

/-- `num_processed_samples += buffer.samples() as i64` (source line 150),
executed only after the callback returned `true`. -/
def advance {E : Type} (s : RunState E) : RunState E :=
  { s with num_processed_samples :=
      s.num_processed_samples + (s.buffer.samples : ℤ) }

/-- The loop of `Dummy::run`, with `fuel` bounding the number of iterations
observed, `n` the current iteration index, and `clock` giving the wall-clock
readings (`Instant::now`) at the start and end of each iteration.  Returns
the ghost trace of callback invocations and the list of sleep durations
`(period_start + interval).saturating_duration_since(period_end)`.  If the
callback returns `false` the loop breaks: the counter is not advanced, no
sleep happens, and no further invocation occurs. -/
def runAux {E : Type} (cfg : WrapperConfig) (cb : Cb E) (clock : ℕ → ℚ × ℚ)
    (itv : ℚ) : ℕ → ℕ → RunState E → List (Invocation E) × List ℚ
  | 0, _, _ => ([], [])
  | fuel + 1, n, s =>
    let inv := (step cfg cb s).1
    if inv.ret then
      let slp := max 0 ((clock n).1 + itv - (clock n).2)
      let rest := runAux cfg cb clock itv fuel (n + 1) (advance (step cfg cb s).2)
      (inv :: rest.1, slp :: rest.2)
    else ([inv], [])

/-- `Dummy::run`: allocate the storage, then loop. -/
def run (E : Type) (cfg : WrapperConfig) (layout : AudioIOLayout) (cb : Cb E)
    (clock : ℕ → ℚ × ℚ) (fuel : ℕ) : List (Invocation E) × List ℚ :=
  runAux cfg cb clock (interval cfg) fuel 0 (initState E cfg layout)

/-- The `Dummy` driver struct itself: it stores only the configuration and
the resolved I/O layout. -/
structure Dummy where
  config : WrapperConfig
  audio_io_layout : AudioIOLayout
  deriving Repr, DecidableEq

/-- `Dummy::new(config)`.  Modelled from the spec: layout resolution
(`config.audio_io_layout_or_exit::<P>()`, from the config module, not in the
shown source) aborts the process when the plugin's layout cannot be
determined; the resolver is passed in as a function returning `none` on that
fatal path. -/
def Dummy.new (resolve : WrapperConfig → Option AudioIOLayout)
    (config : WrapperConfig) : Option Dummy :=
  (resolve config).map fun l => { config := config, audio_io_layout := l }

/-! ### Canonical shapes and the loop invariant -/

/-- The canonical zero buffer: `c` channels of `ps` zero samples each. -/
def zeroBuf (ps c : ℕ) : Buffer :=
  ⟨ps, List.replicate c (List.replicate ps 0)⟩

/-- A buffer reports `ps` samples and holds `c` channels of `ps` samples each. -/
def BufShape (ps c : ℕ) (b : Buffer) : Prop :=
  b.num_samples = ps ∧ b.channels.length = c ∧ ∀ ch ∈ b.channels, ch.length = ps

/-- The shape invariant `Dummy::run` maintains across iterations: the main
buffer matches the main output channel count and every auxiliary buffer
matches its configured port channel count, all with `period_size` samples. -/
def StateShape {E : Type} (cfg : WrapperConfig) (layout : AudioIOLayout)
    (s : RunState E) : Prop :=
  BufShape cfg.period_size (numOut layout) s.buffer ∧
  List.Forall₂ (BufShape cfg.period_size) layout.aux_input_ports s.aux_input_buffers ∧
  List.Forall₂ (BufShape cfg.period_size) layout.aux_output_ports s.aux_output_buffers

lemma bufShape_zeroBuf (ps c : ℕ) : BufShape ps c (zeroBuf ps c) := by
  refine ⟨rfl, by simp [zeroBuf], ?_⟩
  intro ch hch
  simp only [zeroBuf] at hch
  simp [List.eq_of_mem_replicate hch]

lemma zeroed_of_bufShape {ps c : ℕ} {b : Buffer} (h : BufShape ps c b) :
    b.zeroed = zeroBuf ps c := by
  obtain ⟨h1, h2, h3⟩ := h
  unfold Buffer.zeroed zeroBuf
  refine congrArg₂ Buffer.mk h1 ?_
  refine List.eq_replicate_iff.mpr ⟨by simpa using h2, ?_⟩
  intro x hx
  obtain ⟨ch, hch, rfl⟩ := List.mem_map.mp hx
  rw [h3 ch hch]

lemma applyWrite_bufShape {ps c : ℕ} {b : Buffer} (f : ℕ → ℕ → ℚ)
    (h : BufShape ps c b) : BufShape ps c (b.applyWrite f) := by
  obtain ⟨h1, h2, h3⟩ := h
  refine ⟨h1, by simpa [Buffer.applyWrite] using h2, ?_⟩
  intro ch hch
  simp only [Buffer.applyWrite] at hch
  obtain ⟨n, hn, hch⟩ := List.mem_iff_getElem.mp hch
  rw [List.getElem_mapIdx] at hch
  subst hch
  simp only [List.length_mapIdx]
  exact h3 _ (List.getElem_mem _)

lemma bufShape_of_zeroed_applyWrite {ps c : ℕ} {b : Buffer} (f : ℕ → ℕ → ℚ)
    (h : BufShape ps c b) : BufShape ps c (b.zeroed.applyWrite f) :=
  applyWrite_bufShape f (zeroed_of_bufShape h ▸ bufShape_zeroBuf ps c)

lemma map_zeroed_of_forall₂ {ps : ℕ} {cs : List ℕ} {bs : List Buffer}
    (h : List.Forall₂ (BufShape ps) cs bs) :
    bs.map Buffer.zeroed = cs.map (zeroBuf ps) := by
  induction h with
  | nil => rfl
  | cons hab _ ih => simp [ih, zeroed_of_bufShape hab]

lemma forall₂_mapIdx_applyWrite {ps : ℕ} {cs : List ℕ} {bs : List Buffer}
    (g : ℕ → ℕ → ℕ → ℚ) (h : List.Forall₂ (BufShape ps) cs bs) :
    List.Forall₂ (BufShape ps) cs (bs.mapIdx fun i b => b.applyWrite (g i)) := by
  induction h generalizing g with
  | nil => exact List.Forall₂.nil
  | cons hab htl ih =>
      rw [List.mapIdx_cons]
      exact List.Forall₂.cons (applyWrite_bufShape _ hab) (ih fun i => g (i + 1))

lemma forall₂_map_zeroBuf {ps : ℕ} (cs : List ℕ) :
    List.Forall₂ (BufShape ps) cs (cs.map (zeroBuf ps)) := by
  rw [List.forall₂_map_right_iff]
  induction cs with
  | nil => exact List.Forall₂.nil
  | cons c tl ih => exact List.Forall₂.cons (bufShape_zeroBuf ps c) ih

lemma stateShape_initState (E : Type) (cfg : WrapperConfig) (layout : AudioIOLayout) :
    StateShape cfg layout (initState E cfg layout) := by
  refine ⟨bufShape_zeroBuf _ _, ?_, ?_⟩ <;>
    exact forall₂_map_zeroBuf _

lemma stateShape_step {E : Type} {cfg : WrapperConfig} {layout : AudioIOLayout}
    {s : RunState E} (cb : Cb E) (h : StateShape cfg layout s) :
    StateShape cfg layout (step cfg cb s).2 := by
  obtain ⟨h1, h2, h3⟩ := h
  refine ⟨bufShape_of_zeroed_applyWrite _ h1, ?_, ?_⟩
  · have hz : List.Forall₂ (BufShape cfg.period_size) layout.aux_input_ports
        (s.aux_input_buffers.map Buffer.zeroed) := by
      rw [map_zeroed_of_forall₂ h2]
      exact forall₂_map_zeroBuf _
    exact forall₂_mapIdx_applyWrite _ hz
  · have hz : List.Forall₂ (BufShape cfg.period_size) layout.aux_output_ports
        (s.aux_output_buffers.map Buffer.zeroed) := by
      rw [map_zeroed_of_forall₂ h3]
      exact forall₂_map_zeroBuf _
    exact forall₂_mapIdx_applyWrite _ hz

/-! ### Canonical invocations and trace characterisation -/

/-- The transport snapshot `run` builds in each iteration, at sample
position `p` (source lines 108–113). -/
def mkTransport (cfg : WrapperConfig) (p : ℤ) : Transport :=
  ⟨cfg.sample_rate, some p, some cfg.tempo, some (cfg.timesig_num : ℤ),
    some (cfg.timesig_denom : ℤ), true⟩

/-- The auxiliary buses as the callback sees them: one zero buffer per
configured port. -/
def canonAux (cfg : WrapperConfig) (layout : AudioIOLayout) : AuxiliaryBuffers :=
  ⟨layout.aux_input_ports.map (zeroBuf cfg.period_size),
    layout.aux_output_ports.map (zeroBuf cfg.period_size)⟩

/-- The invocation the callback receives at sample position `p`: zeroed
main and auxiliary buffers of the configured shapes, the synthetic transport,
no input events and an empty output sink. -/
def canonInv {E : Type} (cfg : WrapperConfig) (layout : AudioIOLayout)
    (cb : Cb E) (p : ℤ) : Invocation E :=
  ⟨zeroBuf cfg.period_size (numOut layout), canonAux cfg layout, mkTransport cfg p,
    [], [],
    (cb (zeroBuf cfg.period_size (numOut layout)) (canonAux cfg layout)
        (mkTransport cfg p) [] []).ret⟩

lemma step_fst_of_shape {E : Type} {cfg : WrapperConfig} {layout : AudioIOLayout}
    {s : RunState E} (cb : Cb E) (h : StateShape cfg layout s) :
    (step cfg cb s).1 = canonInv cfg layout cb s.num_processed_samples := by
  obtain ⟨h1, h2, h3⟩ := h
  have hb : s.buffer.zeroed = zeroBuf cfg.period_size (numOut layout) :=
    zeroed_of_bufShape h1
  have hin : s.aux_input_buffers.map Buffer.zeroed
      = layout.aux_input_ports.map (zeroBuf cfg.period_size) :=
    map_zeroed_of_forall₂ h2
  have hout : s.aux_output_buffers.map Buffer.zeroed
      = layout.aux_output_ports.map (zeroBuf cfg.period_size) :=
    map_zeroed_of_forall₂ h3
  simp only [step, canonInv, canonAux, mkTransport, hb, hin, hout]
  rfl

lemma step_snd_samples {E : Type} (cfg : WrapperConfig) (cb : Cb E)
    (s : RunState E) : (step cfg cb s).2.buffer.samples = s.buffer.samples := rfl

lemma step_snd_pos {E : Type} (cfg : WrapperConfig) (cb : Cb E)
    (s : RunState E) :
    (step cfg cb s).2.num_processed_samples = s.num_processed_samples := rfl

lemma runAux_succ_of_ret_true {E : Type} (cfg : WrapperConfig) (cb : Cb E)
    (clock : ℕ → ℚ × ℚ) (itv : ℚ) (fuel n : ℕ) (s : RunState E)
    (h : ((step cfg cb s).1).ret = true) :
    runAux cfg cb clock itv (fuel + 1) n s
      = ((step cfg cb s).1
          :: (runAux cfg cb clock itv fuel (n + 1) (advance (step cfg cb s).2)).1,
        max 0 ((clock n).1 + itv - (clock n).2)
          :: (runAux cfg cb clock itv fuel (n + 1) (advance (step cfg cb s).2)).2) := by
  simp [runAux, h]

lemma runAux_succ_of_ret_false {E : Type} (cfg : WrapperConfig) (cb : Cb E)
    (clock : ℕ → ℚ × ℚ) (itv : ℚ) (fuel n : ℕ) (s : RunState E)
    (h : ((step cfg cb s).1).ret = false) :
    runAux cfg cb clock itv (fuel + 1) n s = ([(step cfg cb s).1], []) := by
  simp [runAux, h]

lemma stateShape_advance_step {E : Type} {cfg : WrapperConfig}
    {layout : AudioIOLayout} {s : RunState E} (cb : Cb E)
    (h : StateShape cfg layout s) :
    StateShape cfg layout (advance (step cfg cb s).2) :=
  stateShape_step cb h

lemma advance_step_pos {E : Type} {cfg : WrapperConfig} {layout : AudioIOLayout}
    {s : RunState E} (cb : Cb E) (h : StateShape cfg layout s) :
    (advance (step cfg cb s).2).num_processed_samples
      = s.num_processed_samples + (cfg.period_size : ℤ) := by
  have hps : (step cfg cb s).2.buffer.samples = cfg.period_size := by
    rw [step_snd_samples]
    exact h.1.1
  simp [advance, step_snd_pos, hps]

/-- Workhorse: starting from any well-shaped state, the `i`-th invocation of
the trace is the canonical invocation at position
`num_processed_samples + i * period_size`, no matter what any callback
writes. -/
lemma runAux_trace_get {E : Type} (cfg : WrapperConfig) (layout : AudioIOLayout)
    (cb : Cb E) (clock : ℕ → ℚ × ℚ) (itv : ℚ) :
    ∀ (fuel n : ℕ) (s : RunState E), StateShape cfg layout s →
    ∀ i : ℕ, i < ((runAux cfg cb clock itv fuel n s).1).length →
      ((runAux cfg cb clock itv fuel n s).1)[i]?
        = some (canonInv cfg layout cb
            (s.num_processed_samples + i * cfg.period_size)) := by
  intro fuel
  induction fuel with
  | zero => intro n s _ i h; simp [runAux] at h
  | succ fuel ih =>
      intro n s hs i h
      have hfst := step_fst_of_shape cb hs
      by_cases hret : ((step cfg cb s).1).ret = true
      · have hrw := runAux_succ_of_ret_true cfg cb clock itv fuel n s hret
        match i with
        | 0 =>
            rw [hrw]
            simp only [List.getElem?_cons_zero, hfst]
            norm_num
        | i + 1 =>
            have hs2 := stateShape_advance_step cb hs
            have hlen : i < ((runAux cfg cb clock itv fuel (n + 1)
                (advance (step cfg cb s).2)).1).length := by
              rw [hrw] at h
              simpa using h
            have hrec := ih (n + 1) (advance (step cfg cb s).2) hs2 i hlen
            rw [hrw]
            simp only [List.getElem?_cons_succ]
            rw [hrec, advance_step_pos cb hs]
            congr 2
            push_cast
            ring
      · rw [Bool.not_eq_true] at hret
        have hrw := runAux_succ_of_ret_false cfg cb clock itv fuel n s hret
        match i with
        | 0 =>
            rw [hrw]
            simp only [List.getElem?_cons_zero, hfst]
            norm_num
        | i + 1 =>
            exfalso
            rw [hrw] at h
            simp at h

/-- An invocation that returned `false` is the last entry of the trace. -/
lemma runAux_ret_false_last {E : Type} (cfg : WrapperConfig) (cb : Cb E)
    (clock : ℕ → ℚ × ℚ) (itv : ℚ) :
    ∀ (fuel n : ℕ) (s : RunState E) (i : ℕ) (inv : Invocation E),
      ((runAux cfg cb clock itv fuel n s).1)[i]? = some inv → inv.ret = false →
      i + 1 = ((runAux cfg cb clock itv fuel n s).1).length := by
  intro fuel
  induction fuel with
  | zero => intro n s i inv hg _; simp [runAux] at hg
  | succ fuel ih =>
      intro n s i inv hg hfalse
      by_cases hret : ((step cfg cb s).1).ret = true
      · have hrw := runAux_succ_of_ret_true cfg cb clock itv fuel n s hret
        rw [hrw] at hg ⊢
        match i with
        | 0 =>
            rw [List.getElem?_cons_zero] at hg
            obtain rfl := Option.some.inj hg
            rw [hret] at hfalse
            exact absurd hfalse (by simp)
        | i + 1 =>
            rw [List.getElem?_cons_succ] at hg
            have := ih (n + 1) (advance (step cfg cb s).2) i inv hg hfalse
            simp only [List.length_cons]
            omega
      · rw [Bool.not_eq_true] at hret
        have hrw := runAux_succ_of_ret_false cfg cb clock itv fuel n s hret
        rw [hrw] at hg ⊢
        match i with
        | 0 => simp
        | i + 1 => simp at hg

/-- Once some invocation in the trace has returned `false`, giving the loop
more fuel changes nothing: the loop has stopped and the callback is never
invoked again. -/
lemma runAux_stable {E : Type} (cfg : WrapperConfig) (cb : Cb E)
    (clock : ℕ → ℚ × ℚ) (itv : ℚ) :
    ∀ (fuel k n : ℕ) (s : RunState E),
      (∃ (i : ℕ) (inv : Invocation E),
        ((runAux cfg cb clock itv fuel n s).1)[i]? = some inv ∧ inv.ret = false) →
      runAux cfg cb clock itv (fuel + k) n s = runAux cfg cb clock itv fuel n s := by
  intro fuel
  induction fuel with
  | zero =>
      intro k n s hex
      obtain ⟨i, inv, hg, _⟩ := hex
      simp [runAux] at hg
  | succ fuel ih =>
      intro k n s hex
      by_cases hret : ((step cfg cb s).1).ret = true
      · have hrw := runAux_succ_of_ret_true cfg cb clock itv fuel n s hret
        have hrw' : fuel + 1 + k = (fuel + k) + 1 := by omega
        rw [hrw']
        have hrwk := runAux_succ_of_ret_true cfg cb clock itv (fuel + k) n s hret
        rw [hrwk, hrw]
        have hextl : ∃ (i : ℕ) (inv : Invocation E),
            ((runAux cfg cb clock itv fuel (n + 1) (advance (step cfg cb s).2)).1)[i]?
              = some inv ∧ inv.ret = false := by
          obtain ⟨i, inv, hg, hfalse⟩ := hex
          rw [hrw] at hg
          match i with
          | 0 =>
              rw [List.getElem?_cons_zero] at hg
              obtain rfl := Option.some.inj hg
              rw [hret] at hfalse
              exact absurd hfalse (by simp)
          | i + 1 =>
              rw [List.getElem?_cons_succ] at hg
              exact ⟨i, inv, hg, hfalse⟩
        rw [ih k (n + 1) (advance (step cfg cb s).2) hextl]
      · rw [Bool.not_eq_true] at hret
        have hrw := runAux_succ_of_ret_false cfg cb clock itv fuel n s hret
        have hrw' : fuel + 1 + k = (fuel + k) + 1 := by omega
        rw [hrw', runAux_succ_of_ret_false cfg cb clock itv (fuel + k) n s hret, hrw]

/-- Each recorded sleep duration is the target interval minus that
iteration's elapsed wall-clock time, clamped to zero. -/
lemma runAux_sleeps_get {E : Type} (cfg : WrapperConfig) (cb : Cb E)
    (clock : ℕ → ℚ × ℚ) (itv : ℚ) :
    ∀ (fuel n : ℕ) (s : RunState E) (i : ℕ),
      i < ((runAux cfg cb clock itv fuel n s).2).length →
      ((runAux cfg cb clock itv fuel n s).2)[i]?
        = some (max 0 ((clock (n + i)).1 + itv - (clock (n + i)).2)) := by
  intro fuel
  induction fuel with
  | zero => intro n s i h; simp [runAux] at h
  | succ fuel ih =>
      intro n s i h
      by_cases hret : ((step cfg cb s).1).ret = true
      · have hrw := runAux_succ_of_ret_true cfg cb clock itv fuel n s hret
        rw [hrw] at h ⊢
        match i with
        | 0 => simp
        | i + 1 =>
            rw [List.getElem?_cons_succ]
            simp only [List.length_cons] at h
            have := ih (n + 1) (advance (step cfg cb s).2) i (by omega)
            rw [this]
            have harith : n + 1 + i = n + (i + 1) := by omega
            rw [harith]
      · rw [Bool.not_eq_true] at hret
        have hrw := runAux_succ_of_ret_false cfg cb clock itv fuel n s hret
        rw [hrw] at h
        simp at h

/-- The trace of invocations does not depend on the wall-clock readings (nor
on the iteration index used to sample them): the clock influences only the
sleep durations. -/
lemma runAux_trace_clock_indep {E : Type} (cfg : WrapperConfig) (cb : Cb E)
    (c1 c2 : ℕ → ℚ × ℚ) (itv : ℚ) :
    ∀ (fuel n m : ℕ) (s : RunState E),
      (runAux cfg cb c1 itv fuel n s).1 = (runAux cfg cb c2 itv fuel m s).1 := by
  intro fuel
  induction fuel with
  | zero => intro n m s; rfl
  | succ fuel ih =>
      intro n m s
      by_cases hret : ((step cfg cb s).1).ret = true
      · rw [runAux_succ_of_ret_true cfg cb c1 itv fuel n s hret,
            runAux_succ_of_ret_true cfg cb c2 itv fuel m s hret]
        have htl := ih (n + 1) (m + 1) (advance (step cfg cb s).2)
        simp [htl]
      · rw [Bool.not_eq_true] at hret
        rw [runAux_succ_of_ret_false cfg cb c1 itv fuel n s hret,
            runAux_succ_of_ret_false cfg cb c2 itv fuel m s hret]

/-! ### Concrete inputs for evaluating the model -/

/-- A callback that always asks to continue, writes nothing and pushes no
events. -/
def cbTrue : Cb Unit :=
  fun _ _ _ _ _ => ⟨true, fun _ _ => 0, fun _ _ _ => 0, fun _ _ _ => 0, []⟩

/-- A callback that immediately asks to stop. -/
def cbFalse : Cb Unit :=
  fun _ _ _ _ _ => ⟨false, fun _ _ => 0, fun _ _ _ => 0, fun _ _ _ => 0, []⟩

/-- A wall clock on which every iteration takes no time at all. -/
def clock0 : ℕ → ℚ × ℚ := fun _ => (0, 0)

/-- A wall clock on which every iteration takes a full second. -/
def clockSlow : ℕ → ℚ × ℚ := fun _ => (0, 1)

/-- The configuration of the spec's first scenario:
sample rate 44100, period size 256, tempo 120, 4/4. -/
def cfgA : WrapperConfig := ⟨44100, 256, 120, 4, 4⟩

/-- The pacing example's configuration: sample rate 48000, period size 512. -/
def cfgS : WrapperConfig := ⟨48000, 512, 120, 4, 4⟩

/-- A small configuration for cheap evaluation: sample rate 8, period size 2. -/
def cfgT : WrapperConfig := ⟨8, 2, 120, 4, 4⟩

/-- Stereo main output, no auxiliary ports. -/
def layoutA : AudioIOLayout := ⟨some 2, [], []⟩

/-- Stereo main output, one stereo auxiliary input, two mono auxiliary
outputs — the spec's auxiliary scenario. -/
def layoutB : AudioIOLayout := ⟨some 2, [2], [1, 1]⟩

/-- No main output channels at all. -/
def layoutN : AudioIOLayout := ⟨none, [], []⟩

/-! ### Bridging lemmas -/

lemma lt_length_of_getElem?_eq_some {α : Type} {l : List α} {i : ℕ} {a : α}
    (h : l[i]? = some a) : i < l.length := by
  by_contra hc
  rw [List.getElem?_eq_none (by omega)] at h
  exact Option.noConfusion h

/-- Every invocation recorded in a `run` trace is the canonical invocation
at sample position `i * period_size`. -/
lemma run_trace_canon {E : Type} (cfg : WrapperConfig) (layout : AudioIOLayout)
    (cb : Cb E) (clock : ℕ → ℚ × ℚ) (fuel i : ℕ) (inv : Invocation E)
    (hg : ((run E cfg layout cb clock fuel).1)[i]? = some inv) :
    inv = canonInv cfg layout cb (i * cfg.period_size) := by
  have hlen := lt_length_of_getElem?_eq_some hg
  have hm := runAux_trace_get cfg layout cb clock (interval cfg) fuel 0
    (initState E cfg layout) (stateShape_initState E cfg layout) i hlen
  rw [show (initState E cfg layout).num_processed_samples = 0 from rfl,
    zero_add] at hm
  have hg' : (runAux cfg cb clock (interval cfg) fuel 0
      (initState E cfg layout)).1[i]? = some inv := hg
  rw [hg'] at hm
  exact Option.some.inj hm

/-! ### Claims -/

/-- C1: the first time the callback returns `false`, `run` stops iterating
and returns normally: the invocation that returned `false` is the last entry
of the trace, and running with any larger fuel bound changes nothing — the
callback is never invoked again and no further buffer mutation happens. -/
theorem claim_C1 (E : Type) (cfg : WrapperConfig) (layout : AudioIOLayout)
    (cb : Cb E) (clock : ℕ → ℚ × ℚ) (fuel g i : ℕ) (inv : Invocation E)
    (hfg : fuel ≤ g)
    (hg : ((run E cfg layout cb clock fuel).1)[i]? = some inv)
    (hfalse : inv.ret = false) :
    i + 1 = ((run E cfg layout cb clock fuel).1).length ∧
    run E cfg layout cb clock g = run E cfg layout cb clock fuel := by
  constructor
  · exact runAux_ret_false_last cfg cb clock (interval cfg) fuel 0
      (initState E cfg layout) i inv hg hfalse
  · obtain ⟨k, rfl⟩ := Nat.exists_eq_add_of_le hfg
    exact runAux_stable cfg cb clock (interval cfg) fuel k 0
      (initState E cfg layout) ⟨i, inv, hg, hfalse⟩

theorem claim_C1_witness :
    ((run Unit cfgT layoutA cbFalse clock0 1).1)[0]?
        = some (canonInv cfgT layoutA cbFalse 0) ∧
    0 + 1 = ((run Unit cfgT layoutA cbFalse clock0 1).1).length ∧
    run Unit cfgT layoutA cbFalse clock0 3 = run Unit cfgT layoutA cbFalse clock0 1 := by
  refine ⟨by decide, ?_⟩
  exact claim_C1 Unit cfgT layoutA cbFalse clock0 1 3 0
    (canonInv cfgT layoutA cbFalse 0) (by decide) (by decide) (by decide)

/-- C2: the transport sample position of the first invocation is 0, and
between any invocation and the next one the position grows by exactly
`period_size` — it never decreases or skips. -/
theorem claim_C2 (E : Type) (cfg : WrapperConfig) (layout : AudioIOLayout)
    (cb : Cb E) (clock : ℕ → ℚ × ℚ) (fuel : ℕ) :
    (∀ inv : Invocation E,
      ((run E cfg layout cb clock fuel).1)[0]? = some inv →
      inv.transport.pos_samples = some 0) ∧
    (∀ (i : ℕ) (invA invB : Invocation E),
      ((run E cfg layout cb clock fuel).1)[i]? = some invA →
      ((run E cfg layout cb clock fuel).1)[i + 1]? = some invB →
      invB.transport.pos_samples
        = invA.transport.pos_samples.map (fun p => p + (cfg.period_size : ℤ))) := by
  constructor
  · intro inv hg
    rw [run_trace_canon cfg layout cb clock fuel 0 inv hg]
    simp [canonInv, mkTransport]
  · intro i invA invB hgA hgB
    rw [run_trace_canon cfg layout cb clock fuel i invA hgA,
      run_trace_canon cfg layout cb clock fuel (i + 1) invB hgB]
    simp only [canonInv, mkTransport, Option.map_some]
    congr 1
    push_cast
    ring

theorem claim_C2_witness :
    ((run Unit cfgT layoutA cbTrue clock0 2).1)[0]?
        = some (canonInv cfgT layoutA cbTrue 0) ∧
    ((run Unit cfgT layoutA cbTrue clock0 2).1)[1]?
        = some (canonInv cfgT layoutA cbTrue 2) ∧
    (canonInv cfgT layoutA cbTrue 0).transport.pos_samples = some 0 ∧
    (canonInv cfgT layoutA cbTrue 2).transport.pos_samples
      = (canonInv cfgT layoutA cbTrue 0).transport.pos_samples.map
          (fun p => p + (cfgT.period_size : ℤ)) := by
  refine ⟨by decide, by decide, ?_, ?_⟩
  · exact (claim_C2 Unit cfgT layoutA cbTrue clock0 2).1
      (canonInv cfgT layoutA cbTrue 0) (by decide)
  · exact (claim_C2 Unit cfgT layoutA cbTrue clock0 2).2 0
      (canonInv cfgT layoutA cbTrue 0) (canonInv cfgT layoutA cbTrue 2)
      (by decide) (by decide)

/-- C8: every callback invocation receives an empty input note-event
sequence and an output note-event sink that is empty at entry, whatever any
earlier invocation pushed; the pushed events are never delivered to a later
invocation. -/
theorem claim_C8 (E : Type) (cfg : WrapperConfig) (layout : AudioIOLayout)
    (cb : Cb E) (clock : ℕ → ℚ × ℚ) (fuel i : ℕ) (inv : Invocation E)
    (hg : ((run E cfg layout cb clock fuel).1)[i]? = some inv) :
    inv.input_events = [] ∧ inv.sink_at_entry = [] := by
  rw [run_trace_canon cfg layout cb clock fuel i inv hg]
  exact ⟨rfl, rfl⟩

theorem claim_C8_witness :
    ((run Unit cfgT layoutA cbTrue clock0 1).1)[0]?
        = some (canonInv cfgT layoutA cbTrue 0) ∧
    (canonInv cfgT layoutA cbTrue 0).input_events = [] ∧
    (canonInv cfgT layoutA cbTrue 0).sink_at_entry = [] := by
  refine ⟨by decide, ?_⟩
  exact claim_C8 Unit cfgT layoutA cbTrue clock0 1 0
    (canonInv cfgT layoutA cbTrue 0) (by decide)

/-- C10: the data delivered to the callback is deterministic — for a fixed
configuration, layout and callback, the trace of invocations (transports,
buffer shapes and contents, note-event arguments, returned booleans) is
identical under any two wall clocks: `Instant::now` readings influence only
the sleep durations, never a value the callback observes. -/
theorem claim_C10 (E : Type) (cfg : WrapperConfig) (layout : AudioIOLayout)
    (cb : Cb E) (c1 c2 : ℕ → ℚ × ℚ) (fuel : ℕ) :
    (run E cfg layout cb c1 fuel).1 = (run E cfg layout cb c2 fuel).1 :=
  runAux_trace_clock_indep cfg cb c1 c2 (interval cfg) fuel 0 0
    (initState E cfg layout)

/-- C3: every callback invocation receives a main buffer whose channel count
is the configured main output channel count (0 when absent) with exactly
`period_size` samples per channel, and every sample of the main buffer and of
every auxiliary buffer is zero at entry, regardless of what any earlier
invocation wrote. -/
theorem claim_C3 (E : Type) (cfg : WrapperConfig) (layout : AudioIOLayout)
    (cb : Cb E) (clock : ℕ → ℚ × ℚ) (fuel i : ℕ) (inv : Invocation E)
    (hg : ((run E cfg layout cb clock fuel).1)[i]? = some inv) :
    inv.buffer.channels.length = numOut layout ∧
    inv.buffer.samples = cfg.period_size ∧
    (∀ ch ∈ inv.buffer.channels,
      ch.length = cfg.period_size ∧ ∀ x ∈ ch, x = 0) ∧
    (∀ b ∈ inv.aux.inputs, ∀ ch ∈ b.channels, ∀ x ∈ ch, x = 0) ∧
    (∀ b ∈ inv.aux.outputs, ∀ ch ∈ b.channels, ∀ x ∈ ch, x = 0) := by
  rw [run_trace_canon cfg layout cb clock fuel i inv hg]
  refine ⟨by simp [canonInv, zeroBuf], rfl, ?_, ?_, ?_⟩
  · intro ch hch
    simp only [canonInv, zeroBuf] at hch
    obtain rfl := List.eq_of_mem_replicate hch
    exact ⟨List.length_replicate _ _, fun x hx => List.eq_of_mem_replicate hx⟩
  · intro b hb ch hch x hx
    simp only [canonInv, canonAux] at hb
    obtain ⟨c, _, rfl⟩ := List.mem_map.mp hb
    simp only [zeroBuf] at hch
    obtain rfl := List.eq_of_mem_replicate hch
    exact List.eq_of_mem_replicate hx
  · intro b hb ch hch x hx
    simp only [canonInv, canonAux] at hb
    obtain ⟨c, _, rfl⟩ := List.mem_map.mp hb
    simp only [zeroBuf] at hch
    obtain rfl := List.eq_of_mem_replicate hch
    exact List.eq_of_mem_replicate hx

theorem claim_C3_witness :
    ((run Unit cfgT layoutB cbTrue clock0 1).1)[0]?
        = some (canonInv cfgT layoutB cbTrue 0) ∧
    (canonInv cfgT layoutB cbTrue 0).buffer.channels.length = numOut layoutB ∧
    (canonInv cfgT layoutB cbTrue 0).buffer.samples = cfgT.period_size := by
  refine ⟨by decide, ?_⟩
  have h := claim_C3 Unit cfgT layoutB cbTrue clock0 1 0
    (canonInv cfgT layoutB cbTrue 0) (by decide)
  exact ⟨h.1, h.2.1⟩

/-- C4: every callback invocation receives exactly one auxiliary input
buffer per configured auxiliary input port and one auxiliary output buffer
per configured auxiliary output port, in the configured order, each with the
corresponding configured channel count and `period_size` samples. -/
theorem claim_C4 (E : Type) (cfg : WrapperConfig) (layout : AudioIOLayout)
    (cb : Cb E) (clock : ℕ → ℚ × ℚ) (fuel i : ℕ) (inv : Invocation E)
    (hg : ((run E cfg layout cb clock fuel).1)[i]? = some inv) :
    (inv.aux.inputs.map fun b => b.channels.length) = layout.aux_input_ports ∧
    (inv.aux.outputs.map fun b => b.channels.length) = layout.aux_output_ports ∧
    inv.aux.inputs.length = layout.aux_input_ports.length ∧
    inv.aux.outputs.length = layout.aux_output_ports.length ∧
    (∀ b ∈ inv.aux.inputs, b.samples = cfg.period_size) ∧
    (∀ b ∈ inv.aux.outputs, b.samples = cfg.period_size) := by
  rw [run_trace_canon cfg layout cb clock fuel i inv hg]
  refine ⟨?_, ?_, by simp [canonInv, canonAux], by simp [canonInv, canonAux],
    ?_, ?_⟩
  · simp [canonInv, canonAux, zeroBuf, List.map_map, Function.comp_def]
  · simp [canonInv, canonAux, zeroBuf, List.map_map, Function.comp_def]
  · intro b hb
    simp only [canonInv, canonAux] at hb
    obtain ⟨c, _, rfl⟩ := List.mem_map.mp hb
    rfl
  · intro b hb
    simp only [canonInv, canonAux] at hb
    obtain ⟨c, _, rfl⟩ := List.mem_map.mp hb
    rfl

theorem claim_C4_witness :
    ((run Unit cfgT layoutB cbTrue clock0 1).1)[0]?
        = some (canonInv cfgT layoutB cbTrue 0) ∧
    ((canonInv cfgT layoutB cbTrue 0).aux.inputs.map fun b => b.channels.length)
        = [2] ∧
    ((canonInv cfgT layoutB cbTrue 0).aux.outputs.map fun b => b.channels.length)
        = [1, 1] ∧
    (canonInv cfgT layoutB cbTrue 0).aux.inputs.length = 1 ∧
    (canonInv cfgT layoutB cbTrue 0).aux.outputs.length = 2 := by
  refine ⟨by decide, ?_⟩
  have h := claim_C4 Unit cfgT layoutB cbTrue clock0 1 0
    (canonInv cfgT layoutB cbTrue 0) (by decide)
  exact ⟨h.1, h.2.1, h.2.2.1, h.2.2.2.1⟩

/-- C5: every invocation's transport snapshot carries the configured tempo
and time signature, `playing = true`, and the processed-sample counter as
its position. -/
theorem claim_C5 (E : Type) (cfg : WrapperConfig) (layout : AudioIOLayout)
    (cb : Cb E) (clock : ℕ → ℚ × ℚ) (fuel i : ℕ) (inv : Invocation E)
    (hg : ((run E cfg layout cb clock fuel).1)[i]? = some inv) :
    inv.transport.tempo = some cfg.tempo ∧
    inv.transport.time_sig_numerator = some (cfg.timesig_num : ℤ) ∧
    inv.transport.time_sig_denominator = some (cfg.timesig_denom : ℤ) ∧
    inv.transport.playing = true ∧
    inv.transport.pos_samples = some ((i : ℤ) * (cfg.period_size : ℤ)) := by
  rw [run_trace_canon cfg layout cb clock fuel i inv hg]
  exact ⟨rfl, rfl, rfl, rfl, rfl⟩

set_option maxRecDepth 100000 in
theorem claim_C5_witness :
    ((run Unit cfgA layoutA cbTrue clock0 2).1)[0]?
        = some (canonInv cfgA layoutA cbTrue 0) ∧
    ((run Unit cfgA layoutA cbTrue clock0 2).1)[1]?
        = some (canonInv cfgA layoutA cbTrue 256) ∧
    (canonInv cfgA layoutA cbTrue 0).transport.tempo = some 120 ∧
    (canonInv cfgA layoutA cbTrue 0).transport.time_sig_numerator = some 4 ∧
    (canonInv cfgA layoutA cbTrue 0).transport.time_sig_denominator = some 4 ∧
    (canonInv cfgA layoutA cbTrue 0).transport.playing = true ∧
    (canonInv cfgA layoutA cbTrue 0).transport.pos_samples = some 0 ∧
    (canonInv cfgA layoutA cbTrue 256).transport.pos_samples = some 256 := by
  refine ⟨by decide, by decide, ?_⟩
  have h0 := claim_C5 Unit cfgA layoutA cbTrue clock0 2 0
    (canonInv cfgA layoutA cbTrue 0) (by decide)
  have h1 := claim_C5 Unit cfgA layoutA cbTrue clock0 2 1
    (canonInv cfgA layoutA cbTrue 256) (by decide)
  refine ⟨h0.1, h0.2.1, h0.2.2.1, h0.2.2.2.1, ?_, ?_⟩
  · rw [h0.2.2.2.2]
    norm_num
  · rw [h1.2.2.2.2]
    norm_num [cfgA]

/-- C9: when the layout has no main output channels, `run` still proceeds:
the main buffer has zero channels but still reports `period_size` samples,
and the transport position still advances by `period_size` per accepted
invocation, because the counter is advanced by the buffer's sample count,
which `set_slices` fixes independently of the channel count. -/
theorem claim_C9 (E : Type) (cfg : WrapperConfig) (layout : AudioIOLayout)
    (cb : Cb E) (clock : ℕ → ℚ × ℚ) (fuel i : ℕ) (inv : Invocation E)
    (hmain : layout.main_output_channels = none)
    (hg : ((run E cfg layout cb clock fuel).1)[i]? = some inv) :
    inv.buffer.channels = [] ∧
    inv.buffer.samples = cfg.period_size ∧
    inv.transport.pos_samples = some ((i : ℤ) * (cfg.period_size : ℤ)) := by
  rw [run_trace_canon cfg layout cb clock fuel i inv hg]
  refine ⟨?_, rfl, rfl⟩
  simp [canonInv, zeroBuf, numOut, hmain]

theorem claim_C9_witness :
    layoutN.main_output_channels = none ∧
    ((run Unit cfgT layoutN cbTrue clock0 2).1)[1]?
        = some (canonInv cfgT layoutN cbTrue 2) ∧
    (canonInv cfgT layoutN cbTrue 2).buffer.channels = [] ∧
    (canonInv cfgT layoutN cbTrue 2).buffer.samples = 2 ∧
    (canonInv cfgT layoutN cbTrue 2).transport.pos_samples = some 2 := by
  refine ⟨rfl, by decide, ?_⟩
  have h := claim_C9 Unit cfgT layoutN cbTrue clock0 2 1
    (canonInv cfgT layoutN cbTrue 2) rfl (by decide)
  refine ⟨h.1, h.2.1, ?_⟩
  rw [h.2.2]
  norm_num [cfgT]

/-- C6: the pacing interval is `period_size / sample_rate` seconds, and each
sleep at the end of an accepted iteration lasts the interval minus the
elapsed wall-clock time of that iteration, saturating at zero — never a
negative duration. -/
theorem claim_C6 (E : Type) (cfg : WrapperConfig) (layout : AudioIOLayout)
    (cb : Cb E) (clock : ℕ → ℚ × ℚ) (fuel i : ℕ)
    (h : i < ((run E cfg layout cb clock fuel).2).length) :
    interval cfg = (cfg.period_size : ℚ) / cfg.sample_rate ∧
    ((run E cfg layout cb clock fuel).2)[i]?
      = some (max 0 (interval cfg - ((clock i).2 - (clock i).1))) ∧
    (0 : ℚ) ≤ max 0 (interval cfg - ((clock i).2 - (clock i).1)) := by
  refine ⟨rfl, ?_, le_max_left 0 _⟩
  have hs := runAux_sleeps_get cfg cb clock (interval cfg) fuel 0
    (initState E cfg layout) i h
  have hs' : ((run E cfg layout cb clock fuel).2)[i]?
      = some (max 0 ((clock (0 + i)).1 + interval cfg - (clock (0 + i)).2)) := hs
  rw [hs', zero_add]
  congr 1
  ring_nf

theorem claim_C6_witness :
    0 < ((run Unit cfgS layoutA cbTrue clockSlow 1).2).length ∧
    interval cfgS = (512 : ℚ) / 48000 ∧
    ((run Unit cfgS layoutA cbTrue clockSlow 1).2)[0]? = some 0 := by
  have h0 : 0 < ((run Unit cfgS layoutA cbTrue clockSlow 1).2).length := by decide
  obtain ⟨h1, h2, _⟩ := claim_C6 Unit cfgS layoutA cbTrue clockSlow 1 0 h0
  refine ⟨h0, by rw [h1]; norm_num [cfgS], ?_⟩
  rw [h2]
  norm_num [interval, cfgS, clockSlow]

/-- C7 counterexample: the claim locates the allocation of the sample
storage in `Dummy::new`, but construction performs no allocation at all —
the constructed driver is exactly the pair of the configuration and the
resolved layout (the `Dummy` struct has no storage field), while the sized
zero storage first appears in the state `run` builds before its loop. -/
theorem claim_C7_counterexample :
    Dummy.new (fun _ => some layoutA) cfgA
      = some { config := cfgA, audio_io_layout := layoutA } ∧
    (initState Unit cfgA layoutA).buffer = zeroBuf 256 2 := by
  exact ⟨rfl, rfl⟩

/-- C7 amended: the sample storage for the main bus (main output channel
count × `period_size`) and one zero-initialised block per auxiliary port
(that port's channel count × `period_size`) is allocated once at the start
of each call to `run`, before its loop; every iteration reuses it, keeping
every bus shape intact, and re-zeroes it, so each invocation sees exactly
those sizes.  `Dummy::new` itself stores only the configuration and the
resolved layout. -/
theorem claim_C7_amended (E : Type) (cfg : WrapperConfig) (layout : AudioIOLayout) :
    (initState E cfg layout).buffer = zeroBuf cfg.period_size (numOut layout) ∧
    (initState E cfg layout).aux_input_buffers
      = layout.aux_input_ports.map (zeroBuf cfg.period_size) ∧
    (initState E cfg layout).aux_output_buffers
      = layout.aux_output_ports.map (zeroBuf cfg.period_size) ∧
    StateShape cfg layout (initState E cfg layout) ∧
    (∀ (cb : Cb E) (s : RunState E), StateShape cfg layout s →
      (step cfg cb s).1.buffer = zeroBuf cfg.period_size (numOut layout) ∧
      StateShape cfg layout (advance (step cfg cb s).2)) ∧
    (∀ (resolve : WrapperConfig → Option AudioIOLayout),
      resolve cfg = some layout →
      Dummy.new resolve cfg = some { config := cfg, audio_io_layout := layout }) := by
  refine ⟨rfl, rfl, rfl, stateShape_initState E cfg layout, ?_, ?_⟩
  · intro cb s hs
    constructor
    · rw [step_fst_of_shape cb hs]
      rfl
    · exact stateShape_advance_step cb hs
  · intro resolve hres
    simp [Dummy.new, hres]

theorem claim_C7_amended_witness :
    (initState Unit cfgT layoutB).buffer = zeroBuf 2 2 ∧
    StateShape cfgT layoutB
      (advance (step cfgT cbTrue (initState Unit cfgT layoutB)).2) ∧
    Dummy.new (fun _ => some layoutB) cfgT
      = some { config := cfgT, audio_io_layout := layoutB } := by
  have h := claim_C7_amended Unit cfgT layoutB
  refine ⟨h.1, ?_, ?_⟩
  · exact (h.2.2.2.2.1 cbTrue (initState Unit cfgT layoutB) h.2.2.2.1).2
  · exact h.2.2.2.2.2 (fun _ => some layoutB) rfl
